import Mathlib

/-!
Verification of the manga archive maintenance scripts.

The definitions below are a shallow embedding of the Python sources:

* `update_volume_pages.py` — diff engine (`computeDiff`, STEP 4 of `main`),
  mutation applier (`applyChanges`, STEP 6 of `main`), and the bucket
  inventory reader `list_volume_folders`;
* `upload_manga_to_db.py` — `add_volume` and the sequential volume-add loop;
* `upload_full_manga.py` — `convert_single_volume`;
* `upload_volume.py` — `convert_volume`.

External services (the Convex database and the R2 object store) are modelled
by explicit oracles: a function giving the outcome of each mutation attempt,
and a record holding the folder listing responses.
-/

namespace MangaManga

/-! Diff engine (`update_volume_pages.py`, STEP 4 of `main`)

The Python loop iterates over `sorted(all_volumes)` where
`all_volumes = set(v for v, _ in r2_volumes) | set(db_volume_pages.keys())`,
and for each volume number reads
`r2_count = next((count for v, count in r2_volumes if v == vol_num), None)`
and `db_count = db_volume_pages.get(vol_num, None)`. -/

/-- Model of `next((count for v, count in lst if v == vol), None)`: the count of the
first pair in `lst` whose volume number is `vol`, if any.  Also models
`dict.get` when `lst` is an association list with distinct keys. -/
def lookupCount (lst : List (Nat × Nat)) (vol : Nat) : Option Nat :=
  (lst.find? (fun p => p.1 == vol)).map Prod.snd

/-- The classification a volume number receives in the comparison table. -/
inductive DiffClass : Type
  | matched : DiffClass
  | update : Nat → DiffClass
  | add : Nat → DiffClass
  | orphan : Nat → DiffClass
deriving DecidableEq, Repr

/-- One iteration of the STEP 4 comparison loop: the row produced for
volume `v`, if any.  The Python `if/elif/elif` chain has no `else` branch,
hence the `none` case when `v` occurs in neither inventory is dropped. -/
def classify (r2 db : List (Nat × Nat)) (v : Nat) : Option (Nat × DiffClass) :=
  match lookupCount r2 v, lookupCount db v with
  | some rc, some dc =>
      if rc = dc then some (v, DiffClass.matched) else some (v, DiffClass.update rc)
  | some rc, none => some (v, DiffClass.add rc)
  | none, some dc => some (v, DiffClass.orphan dc)
  | none, none => none

/-- Union of the volume numbers: `set(v for v, _ in r2_volumes) | set(db_volume_pages.keys())`
as a duplicate-free list. -/
def volumeUnion (r2 db : List (Nat × Nat)) : List Nat :=
  (r2.map Prod.fst ++ db.map Prod.fst).dedup

/-- The comparison loop run over an arbitrary enumeration `e` of the volume
set; Python's `sorted` is modelled by `insertionSort`. -/
def computeDiffFromEnum (r2 db : List (Nat × Nat)) (e : List Nat) :
    List (Nat × DiffClass) :=
  (List.insertionSort (· ≤ ·) e).filterMap (classify r2 db)

/-- The full diff of the bucket inventory against the database inventory. -/
def computeDiff (r2 db : List (Nat × Nat)) : List (Nat × DiffClass) :=
  computeDiffFromEnum r2 db (volumeUnion r2 db)

/-- The action stored in `changes_needed` entries. -/
inductive ChangeAction : Type
  | add : ChangeAction
  | update : ChangeAction
deriving DecidableEq, Repr

/-- An element of the `changes_needed` list: `(vol_num, file_count, action)`. -/
structure ChangeEntry : Type where
  volNum : Nat
  fileCount : Nat
  action : ChangeAction
deriving DecidableEq, Repr

/-- The `changes_needed` list built by the STEP 4 loop: UPDATE and ADD rows
only; MATCH and ORPHAN rows produce no change entry. -/
def changesNeeded (r2 db : List (Nat × Nat)) : List ChangeEntry :=
  (computeDiff r2 db).filterMap (fun e =>
    match e.2 with
    | DiffClass.update c => some ⟨e.1, c, ChangeAction.update⟩
    | DiffClass.add c => some ⟨e.1, c, ChangeAction.add⟩
    | _ => none)

/-! Mutation applier (`update_volume_pages.py`, STEP 6 of `main`)

Each loop iteration attempts one change entry.  The outcome of the
`manga:addVolume` mutation at iteration `i` is given by the oracle
`addR i`; whether the `manga:updateVolume` mutation raises at iteration `i`
is given by `updR i`. -/

/-- Possible outcomes of the `manga:addVolume` mutation: success, the
database signalling that the (series, volumeNumber) pair already exists,
or any other error. -/
inductive AddOutcome : Type
  | ok : AddOutcome
  | dupErr : AddOutcome
  | otherErr : AddOutcome
deriving DecidableEq, Repr

/-- The running counters of the apply loop. -/
structure ApplyState : Type where
  updated : Nat
  added : Nat
  skipped : Nat
  failed : Nat
deriving DecidableEq, Repr

def initApplyState : ApplyState := ⟨0, 0, 0, 0⟩

/-- Model of `update_volume_page_count`: calls the `manga:updateVolume` mutation and
returns `True`, catching every exception and returning `False` instead.
`raises` says whether the underlying mutation raises. -/
def update_volume_page_count (raises : Bool) : Bool :=
  !raises

/-- One iteration body of the STEP 6 loop (inside `try`/`except`): returns
the new counters and whether the iteration raised (i.e. was counted as a
failure).  An `add` action calls `manga:addVolume` directly, so any error —
duplicate included — lands in the `except` branch; an `update` action goes
through `update_volume_page_count`, which absorbs every error. -/
def applyEntry (addR : Nat → AddOutcome) (updR : Nat → Bool) (i : Nat)
    (e : ChangeEntry) (s : ApplyState) : ApplyState × Bool :=
  match e.action with
  | ChangeAction.add =>
      match addR i with
      | AddOutcome.ok => ({ s with added := s.added + 1 }, false)
      | _ => ({ s with failed := s.failed + 1 }, true)
  | ChangeAction.update =>
      if update_volume_page_count (updR i) then
        ({ s with updated := s.updated + 1 }, false)
      else
        ({ s with skipped := s.skipped + 1 }, false)

/-- The STEP 6 loop.  After a failure, `if failed >= 3: break` stops the
loop; the second component returns the entries left unattempted. -/
def applyLoop (addR : Nat → AddOutcome) (updR : Nat → Bool) :
    List ChangeEntry → Nat → ApplyState → ApplyState × List ChangeEntry
  | [], _, s => (s, [])
  | e :: rest, i, s =>
      let step := applyEntry addR updR i e s
      if step.2 ∧ 3 ≤ step.1.failed then (step.1, rest)
      else applyLoop addR updR rest (i + 1) step.1

/-- Apply a whole change set starting from zeroed counters. -/
def applyChanges (addR : Nat → AddOutcome) (updR : Nat → Bool)
    (cs : List ChangeEntry) : ApplyState × List ChangeEntry :=
  applyLoop addR updR cs 0 initApplyState

/-! Sequential volume-add loop (`upload_manga_to_db.py`, STEP 3 of `main`)

`add_volume` there inspects the error message: a duplicate signal makes it
return `None` (the caller records the volume as skipped); any other error is
re-raised, and the caller loop then aborts with `typer.Exit(1)`. -/

/-- Function `add_volume` of `upload_manga_to_db.py`, over the outcome of the
underlying `manga:addVolume` mutation: `.ok (some ())` is a created volume
id, `.ok none` means the duplicate error was swallowed, `.error ()` is a
re-raised exception. -/
def add_volume_db (o : AddOutcome) : Except Unit (Option Unit) :=
  match o with
  | AddOutcome.ok => Except.ok (some ())
  | AddOutcome.dupErr => Except.ok none
  | AddOutcome.otherErr => Except.error ()

/-- The STEP 3 loop of `upload_manga_to_db.py`: accumulates
`added_volumes` and `skipped_volumes`; an exception escaping `add_volume`
aborts the whole run (`typer.Exit(1)`). -/
def addVolumesLoop (addR : Nat → AddOutcome) :
    List (Nat × Nat) → Nat → List (Nat × Nat) → List (Nat × Nat) →
      Except Unit (List (Nat × Nat) × List (Nat × Nat))
  | [], _, added, skipped => Except.ok (added, skipped)
  | v :: rest, i, added, skipped =>
      match add_volume_db (addR i) with
      | Except.ok (some _) => addVolumesLoop addR rest (i + 1) (added ++ [v]) skipped
      | Except.ok none => addVolumesLoop addR rest (i + 1) added (skipped ++ [v])
      | Except.error e => Except.error e

/-- Run the volume-add loop on the full `(volume_number, file_count)` list. -/
def uploadVolumesToDb (addR : Nat → AddOutcome) (vols : List (Nat × Nat)) :
    Except Unit (List (Nat × Nat) × List (Nat × Nat)) :=
  addVolumesLoop addR vols 0 [] []

/-! Source-path ordering

Python sorts the discovered source files (`sorted(image_files)`); path
comparison is lexicographic over the characters of the path string.  Mathlib's
`String` order does not reduce in the kernel, so the same lexicographic order
is spelt out over `String.data`. -/

/-- Lexicographic comparison of character lists by code point. -/
def charsLe : List Char → List Char → Bool
  | [], _ => true
  | _ :: _, [] => false
  | a :: as, b :: bs =>
      if a.toNat < b.toNat then true
      else if b.toNat < a.toNat then false
      else charsLe as bs

/-- The order in which Python sorts source paths. -/
def pathLe (a b : String) : Prop := charsLe a.data b.data = true

instance : DecidableRel pathLe := fun a b =>
  inferInstanceAs (Decidable (charsLe a.data b.data = true))

instance : IsTotal String pathLe := by
  constructor
  have h : ∀ x y : List Char, charsLe x y = true ∨ charsLe y x = true := by
    intro x
    induction x with
    | nil => intro y; left; rfl
    | cons a as ih =>
      intro y
      cases y with
      | nil => right; rfl
      | cons b bs =>
        rcases Nat.lt_trichotomy a.toNat b.toNat with hab | hab | hab
        · left; simp [charsLe, hab]
        · rcases ih bs with h1 | h1
          · left; simp [charsLe, hab, Nat.lt_irrefl, h1]
          · right; simp [charsLe, hab, Nat.lt_irrefl, h1]
        · right; simp [charsLe, hab]
  intro a b
  exact h a.data b.data

instance : IsTrans String pathLe := by
  constructor
  have h : ∀ x y z : List Char,
      charsLe x y = true → charsLe y z = true → charsLe x z = true := by
    intro x
    induction x with
    | nil => intro y z _ _; rfl
    | cons a as ih =>
      intro y z h1 h2
      cases y with
      | nil => simp [charsLe] at h1
      | cons b bs =>
        cases z with
        | nil => simp [charsLe] at h2
        | cons c cs =>
          simp only [charsLe] at h1 h2 ⊢
          by_cases hab : a.toNat < b.toNat
          · by_cases hbc : b.toNat < c.toNat
            · simp [Nat.lt_trans hab hbc]
            · by_cases hcb : c.toNat < b.toNat
              · simp [hbc, hcb] at h2
              · have hac : a.toNat < c.toNat := by omega
                simp [hac]
          · by_cases hba : b.toNat < a.toNat
            · simp [hab, hba] at h1
            · simp [hab, hba] at h1
              by_cases hbc : b.toNat < c.toNat
              · have hac : a.toNat < c.toNat := by omega
                simp [hac]
              · by_cases hcb : c.toNat < b.toNat
                · simp [hbc, hcb] at h2
                · simp [hbc, hcb] at h2
                  have hac : ¬ a.toNat < c.toNat := by omega
                  have hca : ¬ c.toNat < a.toNat := by omega
                  simp [hac, hca]
                  exact ih bs cs h1 h2
  intro a b c
  exact h a.data b.data c.data

instance : IsAntisymm String pathLe := by
  constructor
  have h : ∀ x y : List Char, charsLe x y = true → charsLe y x = true → x = y := by
    intro x
    induction x with
    | nil =>
      intro y h1 h2
      cases y with
      | nil => rfl
      | cons b bs => simp [charsLe] at h2
    | cons a as ih =>
      intro y h1 h2
      cases y with
      | nil => simp [charsLe] at h1
      | cons b bs =>
        simp only [charsLe] at h1 h2
        by_cases hab : a.toNat < b.toNat
        · have hba : ¬ b.toNat < a.toNat := by omega
          simp [hab, hba] at h2
        · by_cases hba : b.toNat < a.toNat
          · simp [hab, hba] at h1
          · simp [hab, hba] at h1 h2
            have hn : a.toNat = b.toNat := by omega
            have hc : a = b := by
              apply Char.eq_of_val_eq
              apply UInt32.toNat.inj
              exact hn
            rw [hc, ih bs h1 h2]
  intro a b h1 h2
  exact String.toList_inj.mp (h a.data b.data h1 h2)

/-! Conversion pipeline (`convert_single_volume` of `upload_full_manga.py`
and `convert_volume` of `upload_volume.py`)

Both enumerate the sorted source files from 1 and write
`volume_folder / f"{pad_number(i)}.webp"`.  Whether re-encoding a given
source file succeeds is given by the oracle `encode`.  A run returns the
list of `(source path, output name)` pairs actually written, together with
the job result. -/

/-- Padding helper `pad_number`: `str(num).zfill(3)`. -/
def pad_number (num : Nat) : String :=
  let s := toString num
  if s.length < 3 then String.mk (List.replicate (3 - s.length) '0' ++ s.data) else s

/-- The output filename assigned to position `i` (1-based). -/
def outName (i : Nat) : String := pad_number i ++ ".webp"

/-- The per-file loop of `convert_single_volume`: on the first encode
failure the exception is re-raised (`raise  # Re-raise to stop completely`),
leaving the files written so far on disk. -/
def convertGo (encode : String → Bool) :
    List String → Nat → Nat → List (String × String) →
      List (String × String) × Except String Nat
  | [], _, converted, written => (written, Except.ok converted)
  | f :: rest, i, converted, written =>
      if encode f then
        convertGo encode rest (i + 1) (converted + 1) (written ++ [(f, outName i)])
      else (written, Except.error f)

/-- Function `convert_single_volume` of `upload_full_manga.py`: raises when no source
image exists, otherwise converts the sorted source files sequentially,
aborting the whole volume job on the first failure. -/
def convert_single_volume (encode : String → Bool) (files : List String) :
    List (String × String) × Except String Nat :=
  if files = [] then ([], Except.error ("no images"))
  else convertGo encode (List.insertionSort pathLe files) 1 0 []

/-- The per-file loop of `convert_volume` (`upload_volume.py`): an encode
failure increments `errors` and the loop continues with the next file. -/
def convertVolGo (encode : String → Bool) :
    List String → Nat → Nat → Nat → List (String × String) →
      List (String × String) × Nat × Nat
  | [], _, converted, errors, written => (written, converted, errors)
  | f :: rest, i, converted, errors, written =>
      if encode f then
        convertVolGo encode rest (i + 1) (converted + 1) errors
          (written ++ [(f, outName i)])
      else convertVolGo encode rest (i + 1) converted (errors + 1) written

/-- Function `convert_volume` of `upload_volume.py`: raises only when no source image
exists; otherwise returns the `(converted, errors)` pair. -/
def convert_volume (encode : String → Bool) (files : List String) :
    List (String × String) × Except String (Nat × Nat) :=
  if files = [] then ([], Except.error ("no png"))
  else
    let r := convertVolGo encode (List.insertionSort pathLe files) 1 0 0 []
    (r.1, Except.ok r.2)

/-! Bucket inventory reader (`list_volume_folders`, identical in
`update_volume_pages.py` and `upload_manga_to_db.py`)

The first listing call yields the `CommonPrefixes` folder names (or a
transport error); each matching folder triggers a second listing whose
`Contents` length is the file count (or a transport error).  Any error is
re-raised as a `ValueError`, aborting the whole listing. -/

/-- Whether the pattern (first argument) is a prefix of the text. -/
def startsWith : List Char → List Char → Bool
  | [], _ => true
  | _ :: _, [] => false
  | p :: ps, c :: cs => p == c && startsWith ps cs

/-- Value of `int` on a string of decimal digits. -/
def digitsToNat (ds : List Char) : Nat :=
  ds.foldl (fun n c => n * 10 + (c.toNat - 48)) 0

/-- Match of the regex `volume-(\d+)/` anchored at the start of `l`.  The
greedy digit group must be followed by `/`, so it is exactly the maximal
digit run after `volume-`. -/
def matchVolumeAt (l : List Char) : Option Nat :=
  if startsWith ("volume-".data) l then
    let rest := l.drop 7
    let ds := rest.takeWhile Char.isDigit
    if ds.isEmpty then none
    else if (rest.drop ds.length).head? = some '/' then some (digitsToNat ds)
    else none
  else none

/-- Search `re.search` for the pattern `volume-(\d+)/`: try the match at each position,
left to right. -/
def searchVolume : List Char → Option Nat
  | [] => none
  | c :: cs =>
      match matchVolumeAt (c :: cs) with
      | some v => some v
      | none => searchVolume cs

/-- Volume-number extraction from a folder name. -/
def parseVolume (s : String) : Option Nat := searchVolume s.data

/-- The two levels of R2 listing responses: the folder listing under the
series prefix, and the per-folder object count. -/
structure R2Listing : Type where
  commonPrefixes : Except Unit (List String)
  folderCount : String → Except Unit Nat

/-- The folder loop of `list_volume_folders`: non-matching folders are
ignored; a transport error while counting a matching folder aborts the
whole listing. -/
def collectVolumes (env : R2Listing) : List String → Except Unit (List (Nat × Nat))
  | [] => Except.ok []
  | f :: rest =>
      match parseVolume f with
      | none => collectVolumes env rest
      | some v =>
          match env.folderCount f with
          | Except.error e => Except.error e
          | Except.ok c =>
              match collectVolumes env rest with
              | Except.error e => Except.error e
              | Except.ok tail => Except.ok ((v, c) :: tail)

/-- Sort key of `volumes.sort(key=lambda x: x[0])`: order on `(volume, count)` pairs by
volume number. -/
def pairLe (a b : Nat × Nat) : Prop := a.1 ≤ b.1

instance : DecidableRel pairLe := fun a b =>
  inferInstanceAs (Decidable (a.1 ≤ b.1))

instance : IsTotal (Nat × Nat) pairLe :=
  ⟨fun a b => Nat.le_total a.1 b.1⟩

instance : IsTrans (Nat × Nat) pairLe :=
  ⟨fun _ _ _ h1 h2 => Nat.le_trans h1 h2⟩

/-- Function `list_volume_folders`: list the volume folders, count each one's files,
and return the pairs sorted by volume number; any transport error aborts
with no partial result. -/
def list_volume_folders (env : R2Listing) : Except Unit (List (Nat × Nat)) :=
  match env.commonPrefixes with
  | Except.error e => Except.error e
  | Except.ok prefixes =>
      match collectVolumes env prefixes with
      | Except.error e => Except.error e
      | Except.ok vols => Except.ok (List.insertionSort pairLe vols)

/-! The `main` control flow of `update_volume_pages.py`

After the diff is computed and displayed, a dry run exits before the
confirmation prompt and before STEP 6; an empty change set also exits; a
declined confirmation exits; otherwise STEP 6 applies the change set. -/

/-- What a run of `main` produced: the displayed diff and, when STEP 6 ran,
the applier outcome.  `applied = none` means the mutation applier was never
invoked, so the database is untouched. -/
structure RunResult : Type where
  reportedDiff : List (Nat × DiffClass)
  applied : Option (ApplyState × List ChangeEntry)
deriving DecidableEq, Repr

/-- Function `main` of `update_volume_pages.py` from STEP 4 on, given the two
inventories and the mutation oracles.  `confirmNo` models the operator
answering `N` at the prompt.  `none` models the early `typer.Exit(1)` when
the bucket holds no volumes. -/
def runMain (dryRun yes confirmNo : Bool) (r2 db : List (Nat × Nat))
    (addR : Nat → AddOutcome) (updR : Nat → Bool) : Option RunResult :=
  if r2 = [] then none
  else
    let diff := computeDiff r2 db
    let changes := changesNeeded r2 db
    if dryRun then some ⟨diff, none⟩
    else if changes = [] then some ⟨diff, none⟩
    else if !yes && confirmNo then some ⟨diff, none⟩
    else some ⟨diff, some (applyChanges addR updR changes)⟩

/-! Helper lemmas about the diff engine. -/

theorem lookupCount_isSome_iff (lst : List (Nat × Nat)) (v : Nat) :
    (lookupCount lst v).isSome = true ↔ v ∈ lst.map Prod.fst := by
  unfold lookupCount
  rcases hx : lst.find? (fun p => p.1 == v) with _ | x <;> rw [hx]
  · refine iff_of_false (by simp) ?_
    intro hmem
    rcases List.mem_map.mp hmem with ⟨y, hy, he⟩
    have hs : (lst.find? (fun p => p.1 == v)).isSome = true :=
      List.find?_isSome.mpr ⟨y, hy, by simp [he]⟩
    rw [hx] at hs
    simp at hs
  · refine iff_of_true (by simp) ?_
    have h1 := List.find?_some hx
    have h2 := List.mem_of_find?_eq_some hx
    exact List.mem_map.mpr ⟨x, h2, by simpa using h1⟩

theorem mem_volumeUnion (r2 db : List (Nat × Nat)) (v : Nat) :
    v ∈ volumeUnion r2 db ↔ v ∈ r2.map Prod.fst ∨ v ∈ db.map Prod.fst := by
  simp [volumeUnion]

theorem classify_fst (r2 db : List (Nat × Nat)) (v : Nat) (p : Nat × DiffClass)
    (h : classify r2 db v = some p) : p.1 = v := by
  unfold classify at h
  rcases hr : lookupCount r2 v with _ | rc <;> rcases hd : lookupCount db v with _ | dc <;>
    simp only [hr, hd, Option.some.injEq, reduceCtorEq] at h
  · rw [← h]
  · rw [← h]
  · split_ifs at h <;> simp only [Option.some.injEq] at h <;> rw [← h]

theorem classify_isSome_iff (r2 db : List (Nat × Nat)) (v : Nat) :
    (classify r2 db v).isSome = true ↔ v ∈ volumeUnion r2 db := by
  rw [mem_volumeUnion, ← lookupCount_isSome_iff, ← lookupCount_isSome_iff]
  unfold classify
  rcases lookupCount r2 v with _ | rc <;> rcases lookupCount db v with _ | dc <;>
    simp [apply_ite Option.isSome]

theorem filterMap_classify_fst (r2 db : List (Nat × Nat)) (l : List Nat)
    (h : ∀ v ∈ l, v ∈ volumeUnion r2 db) :
    (l.filterMap (classify r2 db)).map Prod.fst = l := by
  induction l with
  | nil => rfl
  | cons v t ih =>
    have hv : (classify r2 db v).isSome = true :=
      (classify_isSome_iff r2 db v).mpr (h v (List.mem_cons_self v t))
    rcases hcl : classify r2 db v with _ | p
    · rw [hcl] at hv; simp at hv
    · simp only [List.filterMap_cons, hcl, List.map_cons]
      rw [classify_fst r2 db v p hcl, ih (fun w hw => h w (List.mem_cons_of_mem v hw))]

theorem computeDiff_map_fst (r2 db : List (Nat × Nat)) :
    (computeDiff r2 db).map Prod.fst =
      List.insertionSort (· ≤ ·) (volumeUnion r2 db) := by
  unfold computeDiff computeDiffFromEnum
  exact filterMap_classify_fst r2 db _
    (fun v hv => (List.mem_insertionSort _).mp hv)

theorem computeDiff_fst_sorted_lt (r2 db : List (Nat × Nat)) :
    ((computeDiff r2 db).map Prod.fst).Sorted (· < ·) := by
  rw [computeDiff_map_fst]
  have hs : (List.insertionSort (· ≤ ·) (volumeUnion r2 db)).Sorted (· ≤ ·) :=
    List.sorted_insertionSort _ _
  have hn : (List.insertionSort (· ≤ ·) (volumeUnion r2 db)).Nodup :=
    (List.perm_insertionSort _ _).nodup_iff.mpr (List.nodup_dedup _)
  exact hs.lt_of_le hn

theorem mem_computeDiff_of_classify (r2 db : List (Nat × Nat)) (v : Nat)
    (p : Nat × DiffClass) (hv : v ∈ volumeUnion r2 db)
    (h : classify r2 db v = some p) : p ∈ computeDiff r2 db := by
  unfold computeDiff computeDiffFromEnum
  rw [List.mem_filterMap]
  exact ⟨v, (List.mem_insertionSort _).mpr hv, h⟩

theorem computeDiff_classify (r2 db : List (Nat × Nat)) (q : Nat × DiffClass)
    (h : q ∈ computeDiff r2 db) : classify r2 db q.1 = some q := by
  unfold computeDiff computeDiffFromEnum at h
  rw [List.mem_filterMap] at h
  obtain ⟨v, _, hcl⟩ := h
  have hq := classify_fst r2 db v q hcl
  rw [hq]
  exact hcl

theorem changesNeeded_action_classify (r2 db : List (Nat × Nat)) (e : ChangeEntry)
    (he : e ∈ changesNeeded r2 db) :
    classify r2 db e.volNum = some (e.volNum, DiffClass.update e.fileCount) ∨
    classify r2 db e.volNum = some (e.volNum, DiffClass.add e.fileCount) := by
  unfold changesNeeded at he
  rw [List.mem_filterMap] at he
  obtain ⟨q, hq, hmatch⟩ := he
  have hcl := computeDiff_classify r2 db q hq
  rcases q with ⟨w, c⟩
  cases c with
  | matched => simp at hmatch
  | orphan d => simp at hmatch
  | update c =>
    simp only [Option.some.injEq] at hmatch
    rw [← hmatch]
    left
    exact hcl
  | add c =>
    simp only [Option.some.injEq] at hmatch
    rw [← hmatch]
    right
    exact hcl

/-- C1: the diff engine classifies each volume number of the union of the
two inventories as the spec says: both present with equal counts → MATCH;
both present with differing counts → UPDATE targeting the bucket count;
bucket only → ADD targeting the bucket count; database only → ORPHAN, which
is reported but yields no change entry (never mutated). -/
theorem diff_classification (r2 db : List (Nat × Nat)) (v bc dc : Nat) :
    (lookupCount r2 v = some bc → lookupCount db v = some bc →
      (v, DiffClass.matched) ∈ computeDiff r2 db) ∧
    (lookupCount r2 v = some bc → lookupCount db v = some dc → bc ≠ dc →
      (v, DiffClass.update bc) ∈ computeDiff r2 db) ∧
    (lookupCount r2 v = some bc → lookupCount db v = none →
      (v, DiffClass.add bc) ∈ computeDiff r2 db) ∧
    (lookupCount r2 v = none → lookupCount db v = some dc →
      (v, DiffClass.orphan dc) ∈ computeDiff r2 db ∧
      (changesNeeded r2 db).all (fun e => e.volNum != v) = true) := by
  refine ⟨?_, ?_, ?_, ?_⟩
  · intro h1 h2
    have hv : v ∈ volumeUnion r2 db :=
      (mem_volumeUnion r2 db v).mpr
        (Or.inl ((lookupCount_isSome_iff r2 v).mp (by rw [h1]; rfl)))
    apply mem_computeDiff_of_classify r2 db v _ hv
    unfold classify
    rw [h1, h2]
    simp
  · intro h1 h2 h3
    have hv : v ∈ volumeUnion r2 db :=
      (mem_volumeUnion r2 db v).mpr
        (Or.inl ((lookupCount_isSome_iff r2 v).mp (by rw [h1]; rfl)))
    apply mem_computeDiff_of_classify r2 db v _ hv
    unfold classify
    rw [h1, h2]
    simp [h3]
  · intro h1 h2
    have hv : v ∈ volumeUnion r2 db :=
      (mem_volumeUnion r2 db v).mpr
        (Or.inl ((lookupCount_isSome_iff r2 v).mp (by rw [h1]; rfl)))
    apply mem_computeDiff_of_classify r2 db v _ hv
    unfold classify
    rw [h1, h2]
  · intro h1 h2
    have hv : v ∈ volumeUnion r2 db :=
      (mem_volumeUnion r2 db v).mpr
        (Or.inr ((lookupCount_isSome_iff db v).mp (by rw [h2]; rfl)))
    constructor
    · apply mem_computeDiff_of_classify r2 db v _ hv
      unfold classify
      rw [h1, h2]
    · rw [List.all_eq_true]
      intro e he
      rw [bne_iff_ne]
      intro hev
      rcases changesNeeded_action_classify r2 db e he with hcl | hcl <;>
        rw [hev] at hcl <;> unfold classify at hcl <;> rw [h1, h2] at hcl <;>
        simp at hcl

/-- Witness for C1: on the spec's worked example
`bucket = [(1,20),(2,18),(3,25)]`, `db = {1:20, 2:15}`, volume 2 is present
in both with differing counts and is classified UPDATE with target 18, the
bucket count. -/
theorem diff_classification_witness :
    lookupCount [(1, 20), (2, 18), (3, 25)] 2 = some 18 ∧
    lookupCount [(1, 20), (2, 15)] 2 = some 15 ∧
    (2, DiffClass.update 18) ∈ computeDiff [(1, 20), (2, 18), (3, 25)] [(1, 20), (2, 15)] :=
  ⟨by decide, by decide,
    (diff_classification [(1, 20), (2, 18), (3, 25)] [(1, 20), (2, 15)] 2 18 15).2.1
      (by decide) (by decide) (by decide)⟩

/-- C2: every volume number of `bucket ∪ db` appears in the diff exactly
once (the projection to volume numbers is exactly the sorted union, it is
strictly ascending — hence duplicate-free — and each union member has count
one), in exactly one of the four classes, and the output is ascending by
volume number for every input whatsoever. -/
theorem diff_complete_exclusive_sorted (r2 db : List (Nat × Nat)) (v : Nat) :
    (computeDiff r2 db).map Prod.fst =
      List.insertionSort (· ≤ ·) (volumeUnion r2 db) ∧
    ((computeDiff r2 db).map Prod.fst).Sorted (· < ·) ∧
    (v ∈ volumeUnion r2 db → ((computeDiff r2 db).map Prod.fst).count v = 1) := by
  refine ⟨computeDiff_map_fst r2 db, computeDiff_fst_sorted_lt r2 db, ?_⟩
  intro hv
  have hn : ((computeDiff r2 db).map Prod.fst).Nodup :=
    (computeDiff_fst_sorted_lt r2 db).imp ne_of_lt
  have hm : v ∈ (computeDiff r2 db).map Prod.fst := by
    rw [computeDiff_map_fst]
    exact (List.mem_insertionSort _).mpr hv
  exact List.count_eq_one_of_mem hn hm

/-- Witness for C2: on the spec's worked example, volume 2 is in the union
and appears exactly once in the diff. -/
theorem diff_complete_exclusive_sorted_witness :
    (2 : Nat) ∈ volumeUnion [(1, 20), (2, 18), (3, 25)] [(1, 20), (2, 15)] ∧
    ((computeDiff [(1, 20), (2, 18), (3, 25)] [(1, 20), (2, 15)]).map Prod.fst).count 2 = 1 :=
  ⟨by decide,
    (diff_complete_exclusive_sorted [(1, 20), (2, 18), (3, 25)] [(1, 20), (2, 15)] 2).2.2
      (by decide)⟩

/-- C3: the diff engine is deterministic and idempotent: the change set is a
pure function of the two inventories — running the comparison loop over any
two enumerations of the volume set that are permutations of one another
(Python's `set` iteration order is arbitrary before `sorted` is applied)
yields the identical change set, so identical inputs always yield identical
change sets. -/
theorem diff_deterministic (r2 db : List (Nat × Nat)) (e1 e2 : List Nat)
    (h : e1.Perm e2) :
    computeDiffFromEnum r2 db e1 = computeDiffFromEnum r2 db e2 := by
  unfold computeDiffFromEnum
  congr 1
  exact List.eq_of_perm_of_sorted
    ((List.perm_insertionSort (· ≤ ·) e1).trans
      (h.trans (List.perm_insertionSort (· ≤ ·) e2).symm))
    (List.sorted_insertionSort (· ≤ ·) e1)
    (List.sorted_insertionSort (· ≤ ·) e2)

/-- Witness for C3: two enumeration orders of the volume set `{1, 2, 3}`
give the same change set. -/
theorem diff_deterministic_witness :
    ([3, 1, 2] : List Nat).Perm [1, 2, 3] ∧
    computeDiffFromEnum [(1, 20)] [(2, 7)] [3, 1, 2] =
      computeDiffFromEnum [(1, 20)] [(2, 7)] [1, 2, 3] :=
  ⟨by decide, diff_deterministic [(1, 20)] [(2, 7)] [3, 1, 2] [1, 2, 3] (by decide)⟩

/-! Helper lemmas about the mutation applier. -/

theorem applyLoop_cons (addR : Nat → AddOutcome) (updR : Nat → Bool)
    (e : ChangeEntry) (rest : List ChangeEntry) (i : Nat) (s : ApplyState) :
    applyLoop addR updR (e :: rest) i s =
      if (applyEntry addR updR i e s).2 ∧ 3 ≤ (applyEntry addR updR i e s).1.failed
      then ((applyEntry addR updR i e s).1, rest)
      else applyLoop addR updR rest (i + 1) (applyEntry addR updR i e s).1 := rfl

theorem applyEntry_add_fail (addR : Nat → AddOutcome) (updR : Nat → Bool)
    (i : Nat) (e : ChangeEntry) (s : ApplyState)
    (he : e.action = ChangeAction.add) (ha : addR i ≠ AddOutcome.ok) :
    applyEntry addR updR i e s = ({ s with failed := s.failed + 1 }, true) := by
  rcases h : addR i with _ | _ | _
  · exact absurd h ha
  · simp [applyEntry, he, h]
  · simp [applyEntry, he, h]

/-- C4: the circuit breaker: a single failure counter accumulates across the
whole apply run; if the first three attempted entries each fail, the loop
stops right after the third failure with `failed = 3`, all later entries
left unattempted and no other counter touched. -/
theorem circuit_breaker_stops_after_three (addR : Nat → AddOutcome)
    (updR : Nat → Bool) (e1 e2 e3 : ChangeEntry) (rest : List ChangeEntry)
    (h1 : e1.action = ChangeAction.add) (h2 : addR 0 ≠ AddOutcome.ok)
    (h3 : e2.action = ChangeAction.add) (h4 : addR 1 ≠ AddOutcome.ok)
    (h5 : e3.action = ChangeAction.add) (h6 : addR 2 ≠ AddOutcome.ok) :
    applyChanges addR updR (e1 :: e2 :: e3 :: rest) = (⟨0, 0, 0, 3⟩, rest) := by
  have s1 := applyEntry_add_fail addR updR 0 e1 initApplyState h1 h2
  have s2 := applyEntry_add_fail addR updR 1 e2 ⟨0, 0, 0, 1⟩ h3 h4
  have s3 := applyEntry_add_fail addR updR 2 e3 ⟨0, 0, 0, 2⟩ h5 h6
  unfold applyChanges
  rw [applyLoop_cons, s1]
  rw [if_neg (by simp [initApplyState])]
  have hs1 : ({ initApplyState with failed := initApplyState.failed + 1 } : ApplyState) =
      ⟨0, 0, 0, 1⟩ := rfl
  rw [hs1, applyLoop_cons, s2]
  rw [if_neg (by simp)]
  have hs2 : (({ updated := 0, added := 0, skipped := 0, failed := 1 } : ApplyState).failed + 1) = 2 := rfl
  rw [applyLoop_cons]
  rw [show ({ (⟨0, 0, 0, 1⟩ : ApplyState) with failed := (⟨0, 0, 0, 1⟩ : ApplyState).failed + 1 } : ApplyState) = ⟨0, 0, 0, 2⟩ from rfl, s3]
  rw [if_pos (by simp)]

/-- Witness for C4: a four-entry change set whose ADD mutations all fail
stops with `failed = 3` and the fourth entry unattempted. -/
theorem circuit_breaker_stops_after_three_witness :
    (⟨1, 1, ChangeAction.add⟩ : ChangeEntry).action = ChangeAction.add ∧
    (fun _ : Nat => AddOutcome.otherErr) 0 ≠ AddOutcome.ok ∧
    applyChanges (fun _ => AddOutcome.otherErr) (fun _ => false)
        [⟨1, 1, ChangeAction.add⟩, ⟨2, 2, ChangeAction.add⟩,
         ⟨3, 3, ChangeAction.add⟩, ⟨4, 4, ChangeAction.add⟩] =
      (⟨0, 0, 0, 3⟩, [⟨4, 4, ChangeAction.add⟩]) :=
  ⟨rfl, by decide,
    circuit_breaker_stops_after_three (fun _ => AddOutcome.otherErr) (fun _ => false)
      ⟨1, 1, ChangeAction.add⟩ ⟨2, 2, ChangeAction.add⟩ ⟨3, 3, ChangeAction.add⟩
      [⟨4, 4, ChangeAction.add⟩]
      rfl (by decide) rfl (by decide) rfl (by decide)⟩

theorem addVolumesLoop_no_other (addR2 : Nat → AddOutcome)
    (vols : List (Nat × Nat)) :
    ∀ (i : Nat) (added skipped : List (Nat × Nat)),
      (∀ j, j < vols.length → addR2 (i + j) ≠ AddOutcome.otherErr) →
      addVolumesLoop addR2 vols i added skipped = Except.ok
        (added ++ ((vols.enumFrom i).filter
            (fun p => addR2 p.1 == AddOutcome.ok)).map Prod.snd,
         skipped ++ ((vols.enumFrom i).filter
            (fun p => addR2 p.1 == AddOutcome.dupErr)).map Prod.snd) := by
  induction vols with
  | nil => intro i added skipped _; simp [addVolumesLoop]
  | cons v rest ih =>
    intro i added skipped h
    have h0 : addR2 i ≠ AddOutcome.otherErr := by
      have := h 0 (by simp)
      simpa using this
    have hshift : ∀ j, j < rest.length → addR2 (i + 1 + j) ≠ AddOutcome.otherErr := by
      intro j hj
      have := h (j + 1) (by simpa using Nat.succ_lt_succ hj)
      rwa [show i + (j + 1) = i + 1 + j by omega] at this
    rcases ha : addR2 i with _ | _ | _
    · rw [show addVolumesLoop addR2 (v :: rest) i added skipped =
          addVolumesLoop addR2 rest (i + 1) (added ++ [v]) skipped by
        simp [addVolumesLoop, add_volume_db, ha]]
      rw [ih (i + 1) (added ++ [v]) skipped hshift]
      simp [List.enumFrom_cons, List.filter_cons, ha]
    · rw [show addVolumesLoop addR2 (v :: rest) i added skipped =
          addVolumesLoop addR2 rest (i + 1) added (skipped ++ [v]) by
        simp [addVolumesLoop, add_volume_db, ha]]
      rw [ih (i + 1) added (skipped ++ [v]) hshift]
      simp [List.enumFrom_cons, List.filter_cons, ha]
    · exact absurd ha h0

/-- C5 counterexample: in the change-set mutation applier of
`update_volume_pages.py`, an ADD entry whose `manga:addVolume` mutation
signals a duplicate is recorded as FAILED (`failed = 1`, `skipped = 0`),
contradicting the claim that it is recorded as skipped and never as
failed. -/
theorem duplicate_add_recorded_failed_cex :
    (applyChanges (fun _ => AddOutcome.dupErr) (fun _ => false)
        [⟨1, 10, ChangeAction.add⟩]).1.skipped = 0 ∧
    (applyChanges (fun _ => AddOutcome.dupErr) (fun _ => false)
        [⟨1, 10, ChangeAction.add⟩]).1.failed = 1 := by
  decide

/-- C5 amended: in the change-set mutation applier of
`update_volume_pages.py` an ADD entry whose mutation signals a duplicate is
recorded as failed — one more count on the circuit-breaker counter — not as
skipped (the exception itself is still caught by the loop); the
skipped-never-failed duplicate tolerance holds in the volume-add loop of
`upload_manga_to_db.py`, where every run whose mutations signal only
success or duplicates completes without raising, the duplicate-signalled
volumes are exactly the skipped ones, and the successful ones are exactly
the added ones. -/
theorem duplicate_tolerance_located (addR : Nat → AddOutcome)
    (updR : Nat → Bool) (i : Nat) (e : ChangeEntry) (s : ApplyState)
    (addR2 : Nat → AddOutcome) (vols : List (Nat × Nat))
    (he : e.action = ChangeAction.add) (hd : addR i = AddOutcome.dupErr)
    (hno : (List.range vols.length).all
      (fun j => !(addR2 j == AddOutcome.otherErr)) = true) :
    applyEntry addR updR i e s = ({ s with failed := s.failed + 1 }, true) ∧
    uploadVolumesToDb addR2 vols = Except.ok
      (((vols.enum.filter (fun p => addR2 p.1 == AddOutcome.ok)).map Prod.snd),
       ((vols.enum.filter (fun p => addR2 p.1 == AddOutcome.dupErr)).map Prod.snd)) := by
  constructor
  · exact applyEntry_add_fail addR updR i e s he (by rw [hd]; exact fun h => by cases h)
  · have hno' : ∀ j, j < vols.length → addR2 (0 + j) ≠ AddOutcome.otherErr := by
      intro j hj
      have := List.all_eq_true.mp hno j (List.mem_range.mpr hj)
      simpa using this
    have := addVolumesLoop_no_other addR2 vols 0 [] [] hno'
    simpa [uploadVolumesToDb, List.enum] using this

/-- Witness for C5's amended statement: a one-entry change set whose add
signals a duplicate, and a three-volume database upload where the second
add signals a duplicate. -/
theorem duplicate_tolerance_located_witness :
    (⟨1, 10, ChangeAction.add⟩ : ChangeEntry).action = ChangeAction.add ∧
    (fun _ : Nat => AddOutcome.dupErr) 0 = AddOutcome.dupErr ∧
    (List.range ([(1, 5), (2, 6), (3, 7)] : List (Nat × Nat)).length).all
      (fun j => !((fun i => if i = 1 then AddOutcome.dupErr else AddOutcome.ok) j ==
        AddOutcome.otherErr)) = true ∧
    applyEntry (fun _ => AddOutcome.dupErr) (fun _ => false) 0
        ⟨1, 10, ChangeAction.add⟩ initApplyState =
      ({ initApplyState with failed := initApplyState.failed + 1 }, true) ∧
    uploadVolumesToDb (fun i => if i = 1 then AddOutcome.dupErr else AddOutcome.ok)
        [(1, 5), (2, 6), (3, 7)] = Except.ok ([(1, 5), (3, 7)], [(2, 6)]) := by
  have h := duplicate_tolerance_located (fun _ => AddOutcome.dupErr) (fun _ => false) 0
    ⟨1, 10, ChangeAction.add⟩ initApplyState
    (fun i => if i = 1 then AddOutcome.dupErr else AddOutcome.ok)
    [(1, 5), (2, 6), (3, 7)] rfl rfl (by decide)
  exact ⟨rfl, rfl, by decide, h.1, by rw [h.2]; rfl⟩

/-- C10: an UPDATE entry is never recorded as failed: whatever the
`manga:updateVolume` outcome, the failing branch is unreachable for it; any
raising update is absorbed and recorded as skipped; and on a change set of
UPDATE entries only, the whole apply run leaves the failure counter
untouched and attempts every entry — only ADD entries can feed the circuit
breaker. -/
theorem update_entries_never_fail (addR : Nat → AddOutcome) (updR : Nat → Bool)
    (i : Nat) (e : ChangeEntry) (s : ApplyState) (cs : List ChangeEntry)
    (he : e.action = ChangeAction.update) (hr : updR i = true)
    (hcs : cs.all (fun x => x.action == ChangeAction.update) = true) :
    (applyEntry addR updR i e s).1.failed = s.failed ∧
    (applyEntry addR updR i e s).2 = false ∧
    applyEntry addR updR i e s = ({ s with skipped := s.skipped + 1 }, false) ∧
    (applyLoop addR updR cs i s).1.failed = s.failed ∧
    (applyLoop addR updR cs i s).2 = [] := by
  have hstep : ∀ (j : Nat) (x : ChangeEntry) (t : ApplyState),
      x.action = ChangeAction.update →
      (applyEntry addR updR j x t).1.failed = t.failed ∧
      (applyEntry addR updR j x t).2 = false := by
    intro j x t hx
    rcases hu : updR j with _ | _ <;>
      simp [applyEntry, hx, update_volume_page_count, hu]
  have hloop : ∀ (l : List ChangeEntry) (j : Nat) (t : ApplyState),
      (∀ x ∈ l, x.action = ChangeAction.update) →
      (applyLoop addR updR l j t).1.failed = t.failed ∧
      (applyLoop addR updR l j t).2 = [] := by
    intro l
    induction l with
    | nil => intro j t _; exact ⟨rfl, rfl⟩
    | cons x rest ih =>
      intro j t hall
      have hx := hall x (List.mem_cons_self x rest)
      have hs := hstep j x t hx
      rw [applyLoop_cons, if_neg (by rw [hs.2]; simp)]
      have := ih (j + 1) (applyEntry addR updR j x t).1
        (fun y hy => hall y (List.mem_cons_of_mem x hy))
      exact ⟨by rw [this.1, hs.1], this.2⟩
  refine ⟨(hstep i e s he).1, (hstep i e s he).2, ?_, ?_, ?_⟩
  · simp [applyEntry, he, update_volume_page_count, hr]
  · exact (hloop cs i s (fun x hx => by
      have := List.all_eq_true.mp hcs x hx
      simpa using this)).1
  · exact (hloop cs i s (fun x hx => by
      have := List.all_eq_true.mp hcs x hx
      simpa using this)).2

/-- Witness for C10: a raising UPDATE entry is absorbed as skipped, and an
all-UPDATE change set finishes with `failed = 0` and nothing unattempted. -/
theorem update_entries_never_fail_witness :
    (⟨2, 18, ChangeAction.update⟩ : ChangeEntry).action = ChangeAction.update ∧
    (fun _ : Nat => true) 0 = true ∧
    ([⟨2, 18, ChangeAction.update⟩, ⟨5, 9, ChangeAction.update⟩] : List ChangeEntry).all
      (fun x => x.action == ChangeAction.update) = true ∧
    applyEntry (fun _ => AddOutcome.ok) (fun _ => true) 0 ⟨2, 18, ChangeAction.update⟩
        initApplyState =
      ({ initApplyState with skipped := initApplyState.skipped + 1 }, false) ∧
    (applyLoop (fun _ => AddOutcome.ok) (fun _ => true)
        [⟨2, 18, ChangeAction.update⟩, ⟨5, 9, ChangeAction.update⟩] 0
        initApplyState).1.failed = initApplyState.failed :=
  have h := update_entries_never_fail (fun _ => AddOutcome.ok) (fun _ => true) 0
    ⟨2, 18, ChangeAction.update⟩ initApplyState
    [⟨2, 18, ChangeAction.update⟩, ⟨5, 9, ChangeAction.update⟩] rfl rfl (by decide)
  ⟨rfl, rfl, by decide, h.2.2.1, h.2.2.2.1⟩

/-- C9: in dry-run mode the run computes and reports the full change set
and performs no mutation: the mutation applier is never invoked
(`applied = none`), leaving the database untouched. -/
theorem dry_run_no_mutation (yes confirmNo : Bool) (r2 db : List (Nat × Nat))
    (addR : Nat → AddOutcome) (updR : Nat → Bool) (hne : r2 ≠ []) :
    runMain true yes confirmNo r2 db addR updR = some ⟨computeDiff r2 db, none⟩ := by
  unfold runMain
  rw [if_neg hne]
  simp

/-- Witness for C9: a dry run over a one-volume bucket and an empty
database reports the diff and applies nothing. -/
theorem dry_run_no_mutation_witness :
    ([(1, 20)] : List (Nat × Nat)) ≠ [] ∧
    runMain true false false [(1, 20)] [] (fun _ => AddOutcome.ok) (fun _ => false) =
      some ⟨computeDiff [(1, 20)] [], none⟩ :=
  ⟨by decide, dry_run_no_mutation false false [(1, 20)] [] (fun _ => AddOutcome.ok)
    (fun _ => false) (by decide)⟩

/-! Helper lemmas about the conversion pipeline. -/

theorem convertGo_all_ok (encode : String → Bool) (l : List String) :
    ∀ (i conv : Nat) (written : List (String × String)),
      (∀ f ∈ l, encode f = true) →
      convertGo encode l i conv written =
        (written ++ (l.enumFrom i).map (fun p => (p.2, outName p.1)),
         Except.ok (conv + l.length)) := by
  induction l with
  | nil => intro i conv written _; simp [convertGo]
  | cons f rest ih =>
    intro i conv written h
    have hf : encode f = true := h f (List.mem_cons_self f rest)
    rw [show convertGo encode (f :: rest) i conv written =
        convertGo encode rest (i + 1) (conv + 1) (written ++ [(f, outName i)]) by
      simp [convertGo, hf]]
    rw [ih (i + 1) (conv + 1) _ (fun g hg => h g (List.mem_cons_of_mem f hg))]
    simp only [List.enumFrom_cons, List.map_cons, List.append_assoc,
      List.singleton_append, List.length_cons]
    rw [show conv + 1 + rest.length = conv + (rest.length + 1) by omega]

theorem convertVolGo_all_ok (encode : String → Bool) (l : List String) :
    ∀ (i conv errors : Nat) (written : List (String × String)),
      (∀ f ∈ l, encode f = true) →
      convertVolGo encode l i conv errors written =
        (written ++ (l.enumFrom i).map (fun p => (p.2, outName p.1)),
         conv + l.length, errors) := by
  induction l with
  | nil => intro i conv errors written _; simp [convertVolGo]
  | cons f rest ih =>
    intro i conv errors written h
    have hf : encode f = true := h f (List.mem_cons_self f rest)
    rw [show convertVolGo encode (f :: rest) i conv errors written =
        convertVolGo encode rest (i + 1) (conv + 1) errors (written ++ [(f, outName i)]) by
      simp [convertVolGo, hf]]
    rw [ih (i + 1) (conv + 1) errors _ (fun g hg => h g (List.mem_cons_of_mem f hg))]
    simp only [List.enumFrom_cons, List.map_cons, List.append_assoc,
      List.singleton_append, List.length_cons]
    rw [show conv + 1 + rest.length = conv + (rest.length + 1) by omega]

theorem convertGo_first_fail (encode : String → Bool) (l : List String) :
    ∀ (i conv : Nat) (written : List (String × String)) (fk : String),
      l.find? (fun f => !(encode f)) = some fk →
      convertGo encode l i conv written =
        (written ++ ((l.takeWhile encode).enumFrom i).map (fun p => (p.2, outName p.1)),
         Except.error fk) := by
  induction l with
  | nil => intro i conv written fk h; simp at h
  | cons f rest ih =>
    intro i conv written fk h
    by_cases hf : encode f = true
    · have hfind : rest.find? (fun g => !(encode g)) = some fk := by
        rwa [List.find?_cons_of_neg rest (by simp [hf])] at h
      rw [show convertGo encode (f :: rest) i conv written =
          convertGo encode rest (i + 1) (conv + 1) (written ++ [(f, outName i)]) by
        simp [convertGo, hf]]
      rw [ih (i + 1) (conv + 1) _ fk hfind]
      rw [List.takeWhile_cons_of_pos hf]
      simp [List.append_assoc]
    · have hf' : encode f = false := by
        cases hfc : encode f
        · rfl
        · exact absurd hfc hf
      have hfk : f = fk := by
        rw [List.find?_cons_of_pos rest (by simp [hf'])] at h
        exact Option.some.inj h
      rw [show convertGo encode (f :: rest) i conv written = (written, Except.error f) by
        simp [convertGo, hf']]
      rw [List.takeWhile_cons_of_neg (by simp [hf']), hfk]
      simp

/-- C6: converting a volume of N source images, all of which encode
successfully, writes exactly N outputs: the job reports N conversions, the
output names are `001.webp` … `00N.webp` in order, they are assigned to the
sources in ascending sorted-path order, the whole run is invariant under
any permutation of the on-disk discovery order, and `convert_volume` of
`upload_volume.py` writes the same files.  The numbering is purely
positional — it never reads the source filename. -/
theorem conversion_positional_naming (files files2 : List String)
    (encode : String → Bool) (hne : files ≠ []) (hall : files.all encode = true)
    (hperm : files2.Perm files) :
    (convert_single_volume encode files).2 = Except.ok files.length ∧
    ((convert_single_volume encode files).1).map Prod.fst =
      List.insertionSort pathLe files ∧
    ((convert_single_volume encode files).1).map Prod.snd =
      (List.range files.length).map (fun k => outName (k + 1)) ∧
    convert_single_volume encode files2 = convert_single_volume encode files ∧
    (convert_volume encode files).1 = (convert_single_volume encode files).1 ∧
    (convert_volume encode files).2 = Except.ok (files.length, 0) := by
  have hall' : ∀ f ∈ List.insertionSort pathLe files, encode f = true := by
    intro f hf
    exact List.all_eq_true.mp hall f ((List.mem_insertionSort pathLe).mp hf)
  have hlen : (List.insertionSort pathLe files).length = files.length :=
    List.length_insertionSort pathLe files
  have hcs : convert_single_volume encode files =
      (((List.insertionSort pathLe files).enumFrom 1).map (fun p => (p.2, outName p.1)),
       Except.ok files.length) := by
    unfold convert_single_volume
    rw [if_neg hne, convertGo_all_ok encode _ 1 0 [] hall']
    rw [hlen]
    simp
  have hcv : convert_volume encode files =
      (((List.insertionSort pathLe files).enumFrom 1).map (fun p => (p.2, outName p.1)),
       Except.ok (files.length, 0)) := by
    unfold convert_volume
    rw [if_neg hne, convertVolGo_all_ok encode _ 1 0 0 [] hall']
    rw [hlen]
    simp
  refine ⟨by rw [hcs], ?_, ?_, ?_, by rw [hcs, hcv], by rw [hcv]⟩
  · rw [hcs]
    simp only [List.map_map]
    have : (Prod.fst ∘ fun p : Nat × String => (p.2, outName p.1)) = Prod.snd := rfl
    rw [this, List.enumFrom_map_snd]
  · rw [hcs]
    simp only [List.map_map]
    have h1 : (Prod.snd ∘ fun p : Nat × String => (p.2, outName p.1)) =
        (fun p : Nat × String => outName p.1) := rfl
    rw [h1]
    have h2 : (fun p : Nat × String => outName p.1) = outName ∘ Prod.fst := rfl
    rw [h2, ← List.map_map, List.enumFrom_map_fst, hlen, List.range'_eq_map_range,
      List.map_map]
    apply List.map_congr_left
    intro k _
    show outName (1 + k) = outName (k + 1)
    rw [Nat.add_comm]
  · have hsort : List.insertionSort pathLe files2 = List.insertionSort pathLe files :=
      List.eq_of_perm_of_sorted
        ((List.perm_insertionSort pathLe files2).trans
          (hperm.trans (List.perm_insertionSort pathLe files).symm))
        (List.sorted_insertionSort pathLe files2)
        (List.sorted_insertionSort pathLe files)
    have hne2 : files2 ≠ [] := by
      intro h0
      rw [h0] at hperm
      exact hne hperm.symm.eq_nil
    unfold convert_single_volume
    rw [if_neg hne, if_neg hne2, hsort]

/-- Witness for C6: two discovery orders of the same two source files give
the same outputs `001.webp`, `002.webp` assigned in sorted order. -/
theorem conversion_positional_naming_witness :
    (["b.png", "a.png"] : List String) ≠ [] ∧
    (["b.png", "a.png"] : List String).all (fun _ => true) = true ∧
    (["a.png", "b.png"] : List String).Perm ["b.png", "a.png"] ∧
    ((convert_single_volume (fun _ => true) ["b.png", "a.png"]).1).map Prod.snd =
      (List.range ((["b.png", "a.png"] : List String).length)).map
        (fun k => outName (k + 1)) ∧
    convert_single_volume (fun _ => true) ["a.png", "b.png"] =
      convert_single_volume (fun _ => true) ["b.png", "a.png"] :=
  have h := conversion_positional_naming ["b.png", "a.png"] ["a.png", "b.png"]
    (fun _ => true) (by decide) (by decide) (by decide)
  ⟨by decide, by decide, by decide, h.2.2.1, h.2.2.2.1⟩

/-- C7 counterexample: in `convert_volume` of `upload_volume.py` (one of
the claim's two cited conversion functions), an encode failure on the
second of three files does not abort the volume job: the loop continues,
skips the failed file's output number, and the job result is the partial
success count `(2, 1)`, not an error. -/
theorem conversion_partial_success_cex :
    convert_volume (fun f => !(f == "b.png")) ["a.png", "b.png", "c.png"] =
      ([("a.png", "001.webp"), ("c.png", "003.webp")], Except.ok (2, 1)) := rfl

/-- C7 amended: volume fail-fast holds for `convert_single_volume` of
`upload_full_manga.py`: when some sorted source file fails to encode, the
first failing file aborts the whole volume job with an error result — not a
partial success count — while the files before it have already been written
to disk with their positional names. -/
theorem volume_fail_fast_full_manga (files : List String)
    (encode : String → Bool) (fk : String) (hne : files ≠ [])
    (hfail : (List.insertionSort pathLe files).find? (fun f => !(encode f)) = some fk) :
    (convert_single_volume encode files).2 = Except.error fk ∧
    (convert_single_volume encode files).1 =
      (((List.insertionSort pathLe files).takeWhile encode).enumFrom 1).map
        (fun p => (p.2, outName p.1)) := by
  unfold convert_single_volume
  rw [if_neg hne, convertGo_first_fail encode _ 1 0 [] fk hfail]
  simp

/-- Witness for C7's amended statement: with `b.png` failing among three
files, `convert_single_volume` errors on `b.png` and leaves exactly
`001.webp` (for `a.png`) on disk. -/
theorem volume_fail_fast_full_manga_witness :
    (["a.png", "b.png", "c.png"] : List String) ≠ [] ∧
    (List.insertionSort pathLe ["a.png", "b.png", "c.png"]).find?
      (fun f => !((fun g => !(g == "b.png")) f)) = some "b.png" ∧
    (convert_single_volume (fun g => !(g == "b.png")) ["a.png", "b.png", "c.png"]).2 =
      Except.error ("b.png") ∧
    (convert_single_volume (fun g => !(g == "b.png")) ["a.png", "b.png", "c.png"]).1 =
      (((List.insertionSort pathLe ["a.png", "b.png", "c.png"]).takeWhile
          (fun g => !(g == "b.png"))).enumFrom 1).map (fun p => (p.2, outName p.1)) :=
  have h := volume_fail_fast_full_manga ["a.png", "b.png", "c.png"]
    (fun g => !(g == "b.png")) "b.png" (by decide) (by decide)
  ⟨by decide, by decide, h.1, h.2⟩

/-! Helper lemmas about the bucket inventory reader. -/

theorem collectVolumes_error (env : R2Listing) (ps : List String) (f : String)
    (hf : f ∈ ps) (hp : (parseVolume f).isSome = true)
    (he : env.folderCount f = Except.error ()) :
    collectVolumes env ps = Except.error () := by
  induction ps with
  | nil => simp at hf
  | cons g rest ih =>
    rcases List.mem_cons.mp hf with hg | hg
    · subst hg
      obtain ⟨v, hv⟩ := Option.isSome_iff_exists.mp hp
      simp [collectVolumes, hv, he]
    · rcases hpg : parseVolume g with _ | v
      · simp only [collectVolumes, hpg]
        exact ih hg
      · rcases hcg : env.folderCount g with e | c
        · simp [collectVolumes, hpg, hcg]
        · simp only [collectVolumes, hpg, hcg]
          rw [ih hg]

theorem list_volume_folders_ok_sorted (env : R2Listing) (l : List (Nat × Nat))
    (h : list_volume_folders env = Except.ok l) :
    (l.map Prod.fst).Sorted (· ≤ ·) := by
  unfold list_volume_folders at h
  rcases hp : env.commonPrefixes with e | ps <;>
    simp only [hp, reduceCtorEq] at h
  rcases hc : collectVolumes env ps with e | vols <;>
    simp only [hc, reduceCtorEq, Except.ok.injEq] at h
  subst h
  have hs : (List.insertionSort pairLe vols).Sorted pairLe :=
    List.sorted_insertionSort pairLe vols
  exact List.Pairwise.map Prod.fst (fun a b hab => hab) hs

/-- C8 counterexample: `list_volume_folders` does not deduplicate: two
distinct folder names, `volume-1/` and `volume-01/`, both parse to volume
number 1, and the returned list carries volume 1 twice, so the result is
not a deduplicated volume list. -/
theorem bucket_list_duplicate_volumes_cex :
    list_volume_folders
        ⟨Except.ok ["manga/s/volume-1/", "manga/s/volume-01/"], fun _ => Except.ok 5⟩ =
      Except.ok [(1, 5), (1, 5)] ∧
    ¬ (([(1, 5), (1, 5)] : List (Nat × Nat)).map Prod.fst).Nodup :=
  ⟨rfl, by decide⟩

/-- C8 amended: for every slug, the listing returns the
`(volumeNumber, fileCount)` pairs sorted ascending (non-strictly) by volume
number — distinct folder names that parse to the same volume number can
yield duplicate entries, so the list need not be deduplicated — and any
transport error, in the folder listing or in any matching folder's file
count, fails the whole listing with no partial result. -/
theorem bucket_list_sorted_abort (env : R2Listing) (l : List (Nat × Nat))
    (ps : List String) (f : String) :
    (env.commonPrefixes = Except.error () → list_volume_folders env = Except.error ()) ∧
    (list_volume_folders env = Except.ok l → (l.map Prod.fst).Sorted (· ≤ ·)) ∧
    (env.commonPrefixes = Except.ok ps → f ∈ ps → (parseVolume f).isSome = true →
      env.folderCount f = Except.error () → list_volume_folders env = Except.error ()) := by
  refine ⟨?_, list_volume_folders_ok_sorted env l, ?_⟩
  · intro h
    unfold list_volume_folders
    rw [h]
  · intro hps hf hp he
    unfold list_volume_folders
    simp only [hps, collectVolumes_error env ps f hf hp he]

/-- Witness for C8's amended statement: a two-folder listing is returned
sorted by volume number, and the same listing with a failing per-folder
count aborts entirely. -/
theorem bucket_list_sorted_abort_witness :
    list_volume_folders
        ⟨Except.ok ["manga/s/volume-2/", "manga/s/volume-1/"], fun _ => Except.ok 4⟩ =
      Except.ok [(1, 4), (2, 4)] ∧
    (([(1, 4), (2, 4)] : List (Nat × Nat)).map Prod.fst).Sorted (· ≤ ·) ∧
    (⟨Except.ok ["manga/s/volume-2/", "manga/s/volume-1/"], fun _ => Except.error ()⟩ :
        R2Listing).commonPrefixes = Except.ok ["manga/s/volume-2/", "manga/s/volume-1/"] ∧
    "manga/s/volume-1/" ∈ ["manga/s/volume-2/", "manga/s/volume-1/"] ∧
    (parseVolume ("manga/s/volume-1/")).isSome = true ∧
    list_volume_folders
        ⟨Except.ok ["manga/s/volume-2/", "manga/s/volume-1/"], fun _ => Except.error ()⟩ =
      Except.error () :=
  ⟨rfl,
    (bucket_list_sorted_abort
      ⟨Except.ok ["manga/s/volume-2/", "manga/s/volume-1/"], fun _ => Except.ok 4⟩
      [(1, 4), (2, 4)] [] "").2.1 rfl,
    rfl, by decide, by decide,
    (bucket_list_sorted_abort
      ⟨Except.ok ["manga/s/volume-2/", "manga/s/volume-1/"], fun _ => Except.error ()⟩
      [] ["manga/s/volume-2/", "manga/s/volume-1/"] "manga/s/volume-1/").2.2
      rfl (by decide) (by decide) rfl⟩

end MangaManga
